import Mathlib

/-!
# Verification of the VRUI layout / controller core

A shallow embedding of the VRUI JavaScript UI library (src/unnamed/part_001:
the `VRUI` controller class; src/src/layout/abstract-layout.js and
src/src/layout/vertical-layout.js: the container/layout classes), together
with proofs of the spec's testable properties.

JavaScript numbers are embedded as `ℚ`; JS objects become Lean structures;
in-place mutation becomes explicit state passing; thrown exceptions become
`Except`; `console.warn` calls are counted in a `warnings` field.
-/

namespace VRUIModel

/-- A 3D vector (THREE.Vector3), components as rationals. -/
abbrev Vec3 := ℚ × ℚ × ℚ

/-- A ray (THREE.Raycaster's ray): origin and direction. -/
abbrev Ray := Vec3 × Vec3

/--
The observable fields of a VRUI element (`VRUI.Element` and its subclasses).

* `id` — `element.data.id`, the free-form id used by `layoutID` lookup.
* `isLayout` — whether the element is an `instanceof AbstractLayout`
  (i.e. has an `_elements` array and an `add` method).
* `styleHeight` — `element.style.height`, the declared (normalized) height
  read by the vertical strategy's `isFull`.
* `visible` — the `group.visible` flag toggled by `setVisible`.
* `posX`, `posY` — `group.position.x/y`, the transform offsets.
* `parentDims` — `_parentDimensions`, assigned by `VRUI.addPage`.
* `hover` — the transient hover flag cleared by `forceExit`.
* `exitCount` — how many times the element's hover-exit wrapper
  (`_onHoverExitWrapper`) fired; models the observable callback firing.
* `bg` — the element's background hit test: whether a given ray hits the
  element's `_background` region (the geometric test itself lives in the
  external rendering-math collaborator, so it is kept abstract as a
  function of the ray).
-/
structure ElemCore where
  id : Option String
  isLayout : Bool
  styleHeight : ℚ
  visible : Bool
  posX : ℚ
  posY : ℚ
  parentDims : Option (ℚ × ℚ)
  hover : Bool
  exitCount : ℕ
  bg : Ray → Bool
deriving Inhabited

/-- An element tree: an element's observable fields plus its `_elements`
children (empty, and ignored, for leaf views). -/
inductive Elem where
  | mk (core : ElemCore) (children : List Elem)

instance : Inhabited Elem := ⟨.mk default []⟩

/-- The element's observable fields. -/
def Elem.core : Elem → ElemCore
  | .mk c _ => c

/-- The element's `_elements` children. -/
def Elem.children : Elem → List Elem
  | .mk _ cs => cs

/-- `element.setVisible(b)`: toggles the group's visibility flag. -/
def Elem.setVis : Elem → Bool → Elem
  | .mk c cs, b => .mk { c with visible := b } cs

@[simp] theorem Elem.core_mk (c : ElemCore) (cs : List Elem) :
    (Elem.mk c cs).core = c := rfl

@[simp] theorem Elem.children_mk (c : ElemCore) (cs : List Elem) :
    (Elem.mk c cs).children = cs := rfl

@[simp] theorem Elem.setVis_def (c : ElemCore) (cs : List Elem) (b : Bool) :
    (Elem.mk c cs).setVis b = .mk { c with visible := b } cs := rfl

mutual

/-- `AbstractLayout.forceExit` (abstract-layout.js lines 90-97): for each
child, recursively `forceExit` it and clear its `hover` flag.  The
receiver's own `hover` flag is not touched; every strict descendant's is
cleared. -/
def forceExitE : Elem → Elem
  | .mk c cs => .mk c (forceExitList cs)

/-- The loop body of `forceExit` over an `_elements` list: each entry has
its own subtree force-exited (`elt.forceExit()`) and then its `hover`
flag cleared (`elt.hover = false`). -/
def forceExitList : List Elem → List Elem
  | [] => []
  | .mk c cs :: es => .mk { c with hover := false } (forceExitList cs) :: forceExitList es

end

mutual

/-- `true` iff the element and every node of its subtree has `hover = false`. -/
def nodeHoverFree : Elem → Bool
  | .mk c cs => !c.hover && forestHoverFree cs

/-- `true` iff every node in the forest has `hover = false`. -/
def forestHoverFree : List Elem → Bool
  | [] => true
  | e :: es => nodeHoverFree e && forestHoverFree es

end

/-- Modelled from the spec: `Element._checkHover` (element.js, not under
src/).  Per spec §4.1/§6, the hover test checks the ray against the
element's background region; on a miss it fires the element's hover-exit
wrapper — which fires the `onHoverExit` callback and then `forceExit`,
recursively force-clearing descendant hover state — and reports no hit;
on a hit the element is hovered and the test reports a hit.  The wrapper
firing is counted in `exitCount`. -/
def checkHover (r : Ray) : Elem → Bool × Elem
  | .mk c cs =>
    if c.bg r then
      (true, .mk { c with hover := true } cs)
    else
      (false, .mk { c with hover := false, exitCount := c.exitCount + 1 } (forceExitList cs))

mutual

/-- `AbstractLayout._intersect` (abstract-layout.js lines 99-110): run the
hover check against the container's own background; if it misses, return
`false` (the check itself has fired the exit wrapper and force-cleared the
children).  If it hits, test each child in `_elements` order, stopping at
the first child that reports a hit, and return `true` regardless of
whether any child hit. -/
def intersectE (r : Ray) : Elem → Bool × Elem
  | .mk c cs =>
    if c.bg r then
      (true, .mk { c with hover := true } (intersectList r cs).2)
    else
      (false, .mk { c with hover := false, exitCount := c.exitCount + 1 } (forceExitList cs))

/-- The child loop of `_intersect`: children are tested in insertion
order; the first hit short-circuits the loop, leaving the remaining
children untouched. -/
def intersectList (r : Ray) : List Elem → Bool × List Elem
  | [] => (false, [])
  | e :: es =>
    let p := intersectE r e
    if p.1 then (true, p.2 :: es)
    else
      let q := intersectList r es
      (q.1, p.2 :: q.2)

end

/-- The declared style heights of a container's direct children, in
insertion order. -/
def heights (e : Elem) : List ℚ :=
  e.children.map fun c => c.core.styleHeight

/-- `VerticalLayout.isFull` (vertical-layout.js lines 102-110): sum the
declared style height of every direct child and report full once the sum
reaches `1.0`. -/
def isFull (e : Elem) : Bool :=
  decide ((heights e).sum ≥ 1)

mutual

/-- Size of an element tree (for BFS termination). -/
def esize : Elem → ℕ
  | .mk _ cs => 1 + fsize cs

/-- Size of an element forest. -/
def fsize : List Elem → ℕ
  | [] => 0
  | e :: es => esize e + fsize es

end

/-- Size of a BFS queue of (path, element) pairs. -/
def qsize : List (List ℕ × Elem) → ℕ
  | [] => 0
  | (_, e) :: r => esize e + qsize r

/-- Pair each element of a child list with its path (parent path extended
by the child's index, starting at `k`). -/
def childQueue (p : List ℕ) (k : ℕ) : List Elem → List (List ℕ × Elem)
  | [] => []
  | c :: cs => (p ++ [k], c) :: childQueue p (k + 1) cs

theorem qsize_childQueue (p : List ℕ) (k : ℕ) (cs : List Elem) :
    qsize (childQueue p k cs) = fsize cs := by
  induction cs generalizing k with
  | nil => rfl
  | cons c cs ih => simp [childQueue, qsize, fsize, ih]

theorem qsize_append (a b : List (List ℕ × Elem)) :
    qsize (a ++ b) = qsize a + qsize b := by
  induction a with
  | nil => simp [qsize]
  | cons x a ih => cases x; simp [qsize, ih]; omega

/-- The queue loop of `VRUI._visit` (part_001 lines 490-507): a
breadth-first search.  Entries are dequeued in order; the callback
(`findLayout`: does `elt.data.id` match the requested id?) is applied to
each dequeued element, returning it on the first match; an element with an
`_elements` array (a layout) has its children enqueued.  Each element is
paired with its path of child indices from the search root, so that the
caller can mutate the found node purely. -/
def bfsSearch (id : String) : List (List ℕ × Elem) → Option (List ℕ × Elem)
  | [] => none
  | (p, .mk c cs) :: rest =>
    if c.id = some id then some (p, .mk c cs)
    else bfsSearch id (rest ++ if c.isLayout then childQueue p 0 cs else [])
termination_by q => qsize q
decreasing_by
  simp only [qsize, qsize_append, esize]
  split
  all_goals simp only [qsize_childQueue, qsize]
  all_goals omega

/-- `VRUI._visit` applied to the `findLayout` callback of
`_addWithExpansion` (part_001 lines 454-457, 490-507): breadth-first
search of the subtree below `layout` (the root itself is never tested) for
the first element whose `data.id` equals `id`.  Returns `none` when
`layout` has no `_elements` array or when no element matches. -/
def visitPath (layout : Elem) (id : String) : Option (List ℕ × Elem) :=
  if layout.core.isLayout then bfsSearch id (childQueue [] 0 layout.children)
  else none

/-- Apply `f` to the node at the given child-index path (pure rendering of
mutating the object found by `_visit` in place). -/
def modifyAtPath : Elem → List ℕ → (Elem → Elem) → Elem
  | e, [], f => f e
  | .mk c cs, i :: p, f =>
    .mk c (cs.set i (match cs[i]? with
      | some x => modifyAtPath x p f
      | none => default))

/-- `AbstractLayout._addItem`'s effect on a valid element
(abstract-layout.js lines 76-88): push onto `_elements` and reparent the
child's group under the layout's group. -/
def addChild (l x : Elem) : Elem :=
  match l with
  | .mk c cs => .mk c (cs ++ [x])

/--
A tracked input object (`THREE.Object3D` registered via `addInput`).

* `pressed` — `userData.vrui.pressed`.
* `pos` — the translation of the object's `matrixWorld`.
* `fwd` — the rotation of `matrixWorld` applied to `(0,0,-1)`; the 3D
  matrix algebra lives in the external math collaborator, so the model
  records its two observable outputs directly.
-/
structure InputObj where
  pressed : Bool
  pos : Vec3
  fwd : Vec3
deriving Inhabited

/-- Which per-frame update routine is installed in `this._update`:
`_updateVR` (the default) or `_updateMouse` (after `enableMouse`). -/
inductive UpdateMode where
  | vr
  | mouse
deriving DecidableEq, Inhabited

/--
The state of a `VRUI` controller (part_001).  `currPage` is not stored
separately: the source keeps `this.currPage === this.pages[this._pageId]`
as an invariant (both are assigned together at lines 242-243, 251-257 and
263-270), so the model reads the current page through `pageId`.
`warnings` counts `console.warn` calls.  The mouse camera unprojection
(`raycaster.setFromCamera`) is abstracted as the function `mouseRayFn`
from normalized device coordinates to a ray.
-/
structure VRUIState where
  width : ℚ
  height : ℚ
  modeType : ℕ
  template : Option Elem
  enabled : Bool
  pages : List Elem
  pageId : ℕ
  inputObject : Option InputObj
  raycaster : Option Ray
  statePressed : Bool
  forcePressed : Bool
  updateMode : UpdateMode
  mouseCoords : ℚ × ℚ
  mouseRayFn : (ℚ × ℚ) → Ray
  warnings : ℕ
deriving Inhabited

/-- `VRUI.AUTOMATIC_ADDING` (part_001 line 511). -/
def AUTOMATIC_ADDING : ℕ := 0

/-- The `dimensions` argument of `addPage`: optional width and height
(each itself possibly absent on the object). -/
structure PageDims where
  width : Option ℚ
  height : Option ℚ

/-- `dim.width = dim.width || data.width` (and likewise for height): a
missing — or zero, since `0` is falsy in JS — dimension falls back to the
controller's own. -/
def resolveDim (v : Option ℚ) (dflt : ℚ) : ℚ :=
  match v with
  | some w => if w = 0 then dflt else w
  | none => dflt

/-- The dimensions `addPage` resolves from its optional argument
(part_001 lines 213-217): a missing `dimensions` object means both fall
back to the controller's `data.width`/`data.height`. -/
def resolveDims (s : VRUIState) (dims : Option PageDims) : ℚ × ℚ :=
  match dims with
  | none => (s.width, s.height)
  | some d => (resolveDim d.width s.width, resolveDim d.height s.height)

/-- `VRUI.addPage` (part_001 lines 211-247): resolve the dimensions, push
the page, record its `_parentDimensions`, place its top-left corner at the
origin (`x = -width/2`, `y = +height/2`), and hide it — unless it is the
first page, which becomes current (`_pageId = 0`) and visible.  The
`instanceof Element` validation always passes here because every modelled
value is an element; `page.parent = null` has no observable counterpart in
the model. -/
def VRUIState.addPage (s : VRUIState) (page : Elem) (dims : Option PageDims) :
    VRUIState :=
  let w := (resolveDims s dims).1
  let h := (resolveDims s dims).2
  let page1 := Elem.mk
    { page.core with
        parentDims := some (w, h)
        posX := -(w * (1/2))
        posY := h * (1/2)
        visible := s.pages.isEmpty }
    page.children
  { s with
      pages := s.pages ++ [page1]
      pageId := if s.pages.isEmpty then 0 else s.pageId }

/-- The hide/show pair both page transitions perform
(part_001 lines 251-257 and 263-270): hide the outgoing current page
(`this.currPage.setVisible(false)` — `currPage` still holds the page at
the old `_pageId`), install the page at index `j` as current, and show
it.  When `j` is the old index the page ends up shown, exactly as the
aliased mutations do in the source. -/
def VRUIState.hideShow (s : VRUIState) (j : ℕ) : VRUIState :=
  let pages1 := s.pages.set s.pageId ((s.pages.getD s.pageId default).setVis false)
  let pages2 := pages1.set j ((pages1.getD j default).setVis true)
  { s with pageId := j, pages := pages2 }

/-- `VRUI.nextPage` (part_001 lines 249-259): advance `_pageId` with
wraparound, hide the outgoing current page, show the incoming one.  (With
zero pages the source would fault on an undefined `currPage`; the claims
only concern controllers with at least one page.) -/
def VRUIState.nextPage (s : VRUIState) : VRUIState :=
  s.hideShow ((s.pageId + 1) % s.pages.length)

/-- The index computation of `prevPage`: JS `%` is the truncated
remainder (`Int.tmod`), so `(0 - 1) % n` is `-1` for `n ≥ 2`, which the
source then corrects to `n - 1`. -/
def prevIdx (i n : ℕ) : ℕ :=
  let t : ℤ := ((i : ℤ) - 1).tmod (n : ℤ)
  if t < 0 then n - 1 else t.toNat

/-- `VRUI.prevPage` (part_001 lines 261-272): step `_pageId` back with
wraparound (truncated remainder plus a negative fixup), hide the outgoing
current page, show the incoming one. -/
def VRUIState.prevPage (s : VRUIState) : VRUIState :=
  s.hideShow (prevIdx s.pageId s.pages.length)

/-- Intersect the current page with a ray (`this.currPage._intersect(
this._raycaster, this._state)`), writing the updated page back.  In the
source the `state` record is threaded through for leaf press handling,
which lives in the external leaf-view collaborator; the layout-level
traversal embedded here does not read it. -/
def VRUIState.pageIntersect (s : VRUIState) (r : Ray) : Option Bool × VRUIState :=
  match s.pages[s.pageId]? with
  | none => (none, s)
  | some page =>
    let p := intersectE r page
    (some p.1, { s with pages := s.pages.set s.pageId p.2 })

/-- `VRUI._updateVR` (part_001 lines 413-433): with no registered input
object, return `null` immediately; otherwise read the pressed flag
(OR-ed with the `setPressed` override), build the ray from the tracked
object's world matrix, and intersect the current page. -/
def VRUIState.updateVR (s : VRUIState) : Option Bool × VRUIState :=
  match s.inputObject with
  | none => (none, s)
  | some o =>
    let r : Ray := (o.pos, o.fwd)
    let s1 := { s with statePressed := o.pressed || s.forcePressed, raycaster := some r }
    s1.pageIntersect r

/-- `VRUI._updateMouse` (part_001 lines 406-411): project a ray from the
camera through the stored mouse coordinates and intersect the current
page. -/
def VRUIState.updateMouse (s : VRUIState) : Option Bool × VRUIState :=
  let r := s.mouseRayFn s.mouseCoords
  let s1 := { s with raycaster := some r }
  s1.pageIntersect r

/-- `VRUI.update` (part_001 lines 121-127): `null` when disabled,
otherwise run whichever update routine is installed in `this._update`. -/
def VRUIState.update (s : VRUIState) : Option Bool × VRUIState :=
  if !s.enabled then (none, s)
  else
    match s.updateMode with
    | .vr => s.updateVR
    | .mouse => s.updateMouse

/-- The exceptions `VRUI.add` can throw. -/
inductive AddErr where
  /-- `data.mode.template` is not an `AbstractLayout` (part_001 lines 446-450). -/
  | invalidTemplate
  /-- the resolved insertion target is not an `AbstractLayout` — including
  the `null` returned by a failed `_visit` lookup (part_001 lines 467-471). -/
  | invalidTarget
  /-- calling `.add` on a found element that has no such method
  (a JS `TypeError` at part_001 line 486). -/
  | notAFunction
deriving DecidableEq

/--
`VRUI._addWithExpansion` (part_001 lines 442-488).  Flow of the source:

1. the template must be an `AbstractLayout`, else throw;
2. `lastPage` is the last page, or a fresh clone of the template added
   via `addPage` when no page exists (`template.clone()` is value copying
   here);
3. if a `layoutID` is given, `lastPage` is replaced by the result of the
   breadth-first `_visit` lookup — possibly `null`;
4. `if (!(lastPage instanceof AbstractLayout)) throw` — note that a
   failed lookup reaches this check first, so it throws;
5. if the target `isFull()`, a new page is cloned from the template, and
   — only when a `layoutID` was given — the target is re-resolved inside
   the fresh page (with no `layoutID` the insertion target stays the old
   full page);
6. `if (!lastPage)` — only reachable via the re-resolution in step 5 —
   warn that the `layoutID` was not found and skip;
7. append the element to the target (`lastPage.add(element)`).
-/
def VRUIState.addWithExpansion (s : VRUIState) (element : Elem)
    (layoutID : Option String) : Except AddErr VRUIState :=
  match s.template with
  | none => .error .invalidTemplate
  | some template =>
    if !template.core.isLayout then .error .invalidTemplate
    else
      let s1 := if s.pages.isEmpty then s.addPage template none else s
      let lastIdx := s1.pages.length - 1
      let lastPage := s1.pages.getD lastIdx default
      match layoutID with
      | none =>
        if !lastPage.core.isLayout then .error .invalidTarget
        else if isFull lastPage then
          let s2 := s1.addPage template none
          .ok { s2 with
                  pages := s2.pages.set lastIdx
                    (addChild (s2.pages.getD lastIdx default) element) }
        else
          .ok { s1 with pages := s1.pages.set lastIdx (addChild lastPage element) }
      | some id =>
        match visitPath lastPage id with
        | none => .error .invalidTarget
        | some (path, tgt) =>
          if !tgt.core.isLayout then .error .invalidTarget
          else if isFull tgt then
            let s2 := s1.addPage template none
            let newIdx := s2.pages.length - 1
            match visitPath (s2.pages.getD newIdx default) id with
            | none => .ok { s2 with warnings := s2.warnings + 1 }
            | some (path2, tgt2) =>
              if !tgt2.core.isLayout then .error .notAFunction
              else
                .ok { s2 with
                        pages := s2.pages.set newIdx
                          (modifyAtPath (s2.pages.getD newIdx default) path2
                            (fun l => addChild l element)) }
          else
            .ok { s1 with
                    pages := s1.pages.set lastIdx
                      (modifyAtPath lastPage path (fun l => addChild l element)) }

/-- `VRUI._add` (part_001 lines 175-196) for a single element: dispatch on
the mode; `AUTOMATIC_ADDING` delegates to the expansion algorithm, any
other mode warns and mutates nothing.  The `instanceof Element` check
always passes because every modelled value is an element. -/
def VRUIState.addElem (s : VRUIState) (element : Elem) (layoutID : Option String) :
    Except AddErr VRUIState :=
  if s.modeType = AUTOMATIC_ADDING then s.addWithExpansion element layoutID
  else .ok { s with warnings := s.warnings + 1 }

/-! ## `AbstractLayout.add` (variadic entry point), for claim C7 -/

/-- A JavaScript argument value as far as `AbstractLayout.add` can
distinguish it: a VRUI element, an `Array`, `null`, or `undefined`. -/
inductive JSVal where
  | elem (e : Elem)
  | arr (l : List JSVal)
  | nullv
  | undef

/-- JS `x === undefined || x === null`. -/
def isNullish : JSVal → Bool
  | .nullv => true
  | .undef => true
  | _ => false

/-- The errors `AbstractLayout.add` can throw. -/
inductive LayoutErr where
  /-- `provided argument is null or undefined` (abstract-layout.js line 62-65). -/
  | nullArg
  /-- `provided element is not an instance of Element`
  (abstract-layout.js lines 78-81). -/
  | invalidElement
deriving DecidableEq

/-- `AbstractLayout._addItem` (abstract-layout.js lines 76-88): a value
that is not an `Element` instance — an `Array` included — throws; an
element is appended to `_elements` and its group reparented. -/
def addItemL (l : Elem) (v : JSVal) : Except LayoutErr Elem :=
  match v with
  | .elem e => .ok (addChild l e)
  | _ => .error .invalidElement

/-- Fold `_addItem` over a list of arguments, stopping at the first
thrown error. -/
def addAllL (l : Elem) : List JSVal → Except LayoutErr Elem
  | [] => .ok l
  | v :: vs =>
    match addItemL l v with
    | .ok l2 => addAllL l2 vs
    | .error er => .error er

/-- `AbstractLayout.add` (abstract-layout.js lines 60-74), applied to its
full `arguments` list.  The null/undefined check inspects the first
(named) parameter; then `if (arguments.length > 0)` — which holds whenever
an argument was passed at all — iterates `_addItem` over every argument.
The subsequent `else if (element.constructor === Array)` branch, meant to
splice a single array argument, is therefore unreachable; it is kept here
verbatim. -/
def layoutAdd (l : Elem) (args : List JSVal) : Except LayoutErr Elem :=
  match args with
  | [] => .error .nullArg
  | v :: _ =>
    if isNullish v then .error .nullArg
    else if args.length > 0 then addAllL l args
    else
      match v with
      | .arr es => addAllL l es
      | _ => addItemL l v

/-! ## `VerticalLayout.refresh` (vertical-layout.js lines 39-95), for
claims C6 and C8 -/

/-- The computed dimensions a child exposes after its own `refresh`
(`elt._dimensions`): resolved width, height, half-width and vertical
margins, as read by the vertical placement loop. -/
structure VDims where
  width : ℚ
  height : ℚ
  halfW : ℚ
  mTop : ℚ
  mBottom : ℚ
deriving Inhabited

/-- `style.align` as matched by the vertical loop (`top`, `center`,
`bottom`, or anything else — which the switch ignores). -/
inductive VAlign where
  | top
  | center
  | bottom
  | other
deriving DecidableEq, Inhabited

/-- `style.position` as matched by the horizontal switch: `right`,
`center`, or the default (`left`, for which no case exists). -/
inductive VPos where
  | left
  | right
  | center
deriving DecidableEq, Inhabited

/-- A child as the vertical layout pass sees it: its declared alignment
and position, its `refresh` — the child's own dimension resolution, a
Node capability of the external element collaborator, taken as a function
from the available space to the computed dimensions — and its current
transform offsets. -/
structure VChild where
  align : VAlign
  pos : VPos
  dims : ℚ → ℚ → VDims
  posX : ℚ
  posY : ℚ
deriving Inhabited

/-- The container's resolved padding (`this._dimensions.padding`). -/
structure VPad where
  top : ℚ
  bottom : ℚ
  left : ℚ
  right : ℚ
deriving Inhabited

/-- The per-child loop of `VerticalLayout.refresh` (lines 60-93), carrying
the running `offset.top` and `offset.bottom` accumulators.  `align: top`
stacks downward from the top edge; `align: bottom` stacks upward using the
container height; `align: center` only logs a warning and leaves the
vertical offset untouched.  The horizontal switch is independent of the
vertical one: `right` and `center` place against the padded content width,
and the default (left) leaves the horizontal offset untouched. -/
def vloop (maxW maxH height : ℚ) : ℚ → ℚ → List VChild → List VChild
  | _, _, [] => []
  | top, bottom, c :: cs =>
    let d := c.dims maxW maxH
    let v : ℚ × ℚ × ℚ :=
      match c.align with
      | .top => (-(top + d.mTop), top + d.mTop + d.height + d.mBottom, bottom)
      | .center => (c.posY, top, bottom)
      | .bottom => (bottom + d.mBottom - height + d.height, top, bottom + d.mBottom + d.height + d.mTop)
      | .other => (c.posY, top, bottom)
    let x : ℚ :=
      match c.pos with
      | .right => maxW - d.width
      | .center => maxW * (1/2) - d.halfW
      | .left => c.posX
    { c with posX := x, posY := v.1 } :: vloop maxW maxH height v.2.1 v.2.2 cs

/-- The content width: container width minus horizontal padding
(`maxWidthPerElt`). -/
def contentW (width : ℚ) (pad : VPad) : ℚ :=
  width - (pad.right + pad.left)

/-- The content height: container height minus vertical padding
(`maxHeightPerElt`). -/
def contentH (height : ℚ) (pad : VPad) : ℚ :=
  height - (pad.top + pad.bottom)

/-- `VerticalLayout.refresh` (lines 39-95) given the container's own
resolved dimensions and padding (computed by `super.refresh`, i.e. the
linear-layout/element base — an external collaborator of this pass): seed
the running offsets from the padding and run the placement loop.  (The
source also computes `offset.x = padding.left - padding.right`, which no
later statement reads.) -/
def verticalRefresh (width height : ℚ) (pad : VPad) (children : List VChild) :
    List VChild :=
  vloop (contentW width pad) (contentH height pad) height pad.top pad.bottom children

/-- The full vertical extent one `align: top` child consumes: its top
margin, its height, and its bottom margin, at the given available space. -/
def fullH (maxW maxH : ℚ) (c : VChild) : ℚ :=
  (c.dims maxW maxH).mTop + (c.dims maxW maxH).height + (c.dims maxW maxH).mBottom

/-! ## Derived observations on controller state -/

/-- The visibility flags of the controller's pages, in page order. -/
def visVec (s : VRUIState) : List Bool :=
  s.pages.map fun p => p.core.visible

/-- The page-visibility invariant every controller built through
`addPage`/`nextPage`/`prevPage` maintains: the current index is in range
and a page is visible exactly when it is the current one. -/
def Inv (s : VRUIState) : Prop :=
  s.pageId < s.pages.length ∧
    ∀ j, j < s.pages.length →
      (s.pages.getD j default).core.visible = decide (j = s.pageId)

/-- A page-navigation call. -/
inductive PageMove where
  | next
  | prev

/-- Run one navigation call. -/
def applyMove (m : PageMove) (s : VRUIState) : VRUIState :=
  match m with
  | .next => s.nextPage
  | .prev => s.prevPage

/-- Run a sequence of navigation calls, first element first. -/
def runMoves : List PageMove → VRUIState → VRUIState
  | [], s => s
  | m :: ms, s => runMoves ms (applyMove m s)

/-! ## Concrete instances used by evaluations and witnesses -/

/-- A neutral element core. -/
def baseCore : ElemCore :=
  { id := none, isLayout := true, styleHeight := 0, visible := false,
    posX := 0, posY := 0, parentDims := none, hover := false,
    exitCount := 0, bg := fun _ => false }

/-- A layout element with the given id and children. -/
def layoutE (id : Option String) (cs : List Elem) : Elem :=
  .mk { baseCore with id := id } cs

/-- A leaf (non-layout) element with the given id and style height. -/
def leafE (id : Option String) (h : ℚ) : Elem :=
  .mk { baseCore with id := id, isLayout := false, styleHeight := h } []

/-- A freshly constructed enabled controller with unit panel dimensions,
`AUTOMATIC_ADDING` mode and no template, pages or input. -/
def s0 : VRUIState :=
  { width := 1, height := 1, modeType := AUTOMATIC_ADDING, template := none,
    enabled := true, pages := [], pageId := 0, inputObject := none,
    raycaster := none, statePressed := false, forcePressed := false,
    updateMode := .vr, mouseCoords := (0, 0),
    mouseRayFn := fun _ => ((0, 0, 0), (0, 0, 0)), warnings := 0 }

/-- A controller in `AUTOMATIC_ADDING` mode whose template is a vertical
layout holding one child with id `a`, with one page already cloned from
the template (as `constructor(data, root)` does). -/
def sC1 : VRUIState :=
  VRUIState.addPage
    { s0 with template := some (layoutE none [leafE (some "a") 0]) }
    (layoutE none [leafE (some "a") 0]) none

/-- A controller in `AUTOMATIC_ADDING` mode with an empty vertical-layout
template and no pages yet. -/
def sC2 : VRUIState :=
  { s0 with template := some (layoutE none []) }

/-- An element whose declared style height fills a page by itself. -/
def tallLeaf : Elem := leafE none 1

/-- An enabled controller in tracked-device mode with no registered
input object. -/
def sC10 : VRUIState :=
  { s0 with pages := [layoutE none []] }

/-- A two-page controller state satisfying the visibility invariant:
page 0 current and visible, page 1 hidden. -/
def sC3 : VRUIState :=
  { s0 with
      pages := [Elem.mk { baseCore with visible := true } [], layoutE none []],
      pageId := 0 }

/-- A controller with one existing page, used to observe `addPage`. -/
def sC9 : VRUIState :=
  { s0 with
      width := 3, height := 2,
      pages := [Elem.mk { baseCore with visible := true } []], pageId := 0 }

/-- A ray no modelled background test accepts. -/
def rayW : Ray := ((0, 0, 0), (0, 0, 1))

/-- A container with a hovered child, whose background test rejects every
ray. -/
def eC5 : Elem :=
  .mk baseCore [Elem.mk { baseCore with hover := true, isLayout := false } []]

/-- Two containers whose direct children carry the same multiset of
declared style heights in different orders. -/
def eC4a : Elem := layoutE none [leafE none 1, leafE none (1/2)]

/-- See `eC4a`. -/
def eC4b : Elem := layoutE none [leafE none (1/2), leafE none 1]

/-- The padding of the C8 counterexample: one unit of left padding. -/
def padC8 : VPad := { top := 0, bottom := 0, left := 1, right := 0 }

/-- A right-positioned child of resolved width 4 in a container of width
10: the source places it at `x = (10 - 1) - 4 = 5`, not at
`10 - 4 = 6`. -/
def childC8 : VChild :=
  { align := .top, pos := .right,
    dims := fun _ _ => { width := 4, height := 1, halfW := 2, mTop := 0, mBottom := 0 },
    posX := 0, posY := 0 }

/-- Two stacked `align: top` children used to witness the vertical
placement formula. -/
def childrenC6 : List VChild :=
  [ { align := .top, pos := .left,
      dims := fun _ _ => { width := 2, height := 3, halfW := 1, mTop := 1, mBottom := 1 },
      posX := 0, posY := 0 },
    { align := .top, pos := .left,
      dims := fun _ _ => { width := 2, height := 2, halfW := 1, mTop := 1, mBottom := 0 },
      posX := 0, posY := 0 } ]

/-- A padded container for the C6 witness: one unit of top padding. -/
def padC6 : VPad := { top := 1, bottom := 0, left := 0, right := 0 }

/-! ## Theorems -/

/-- C4: for every vertical layout container, `isFull()` returns true iff
the sum of the declared style heights of its direct children is at least
`1.0`, and false otherwise; the result is unchanged under any permutation
of children with the same multiset of heights, and depends only on the
direct children's declared style heights. -/
theorem c4_isFull_characterization :
    (∀ e : Elem, isFull e = true ↔ 1 ≤ (heights e).sum)
    ∧ (∀ e₁ e₂ : Elem, (heights e₁).Perm (heights e₂) → isFull e₁ = isFull e₂)
    ∧ (∀ e₁ e₂ : Elem, heights e₁ = heights e₂ → isFull e₁ = isFull e₂) := by
  refine ⟨fun e => ?_, fun e₁ e₂ h => ?_, fun e₁ e₂ h => ?_⟩
  · simp [isFull, ge_iff_le]
  · simp [isFull, h.sum_eq]
  · simp [isFull, h]

/-- Witness for C4 at a concrete input: two containers whose children
carry the heights `[1, 1/2]` and `[1/2, 1]` agree on `isFull`. -/
theorem c4_isFull_witness : isFull eC4a = isFull eC4b :=
  c4_isFull_characterization.2.1 eC4a eC4b (by
    simp only [eC4a, eC4b, layoutE, leafE, heights, Elem.children_mk, List.map_cons,
      List.map_nil, Elem.core_mk]
    exact List.Perm.swap _ _ _)

/-- C10: an enabled controller in tracked-device mode with no registered
input object returns `null` from `update()` without building a ray,
without intersecting the current page, and without changing any state. -/
theorem c10_update_no_input (s : VRUIState) (he : s.enabled = true)
    (hm : s.updateMode = .vr) (hi : s.inputObject = none) :
    s.update = (none, s) := by
  simp [VRUIState.update, VRUIState.updateVR, he, hm, hi]

/-- Witness for C10 at a concrete controller. -/
theorem c10_update_witness : sC10.update = (none, sC10) :=
  c10_update_no_input sC10 rfl rfl rfl

/-- C7 (the code at the failing input): `AbstractLayout.add` appends a
single node, appends a variadic list of nodes in call order, but throws
`InvalidElement` on a homogeneous array argument — the
`arguments.length > 0` guard makes the array branch unreachable and the
array itself reaches the `instanceof Element` check. -/
theorem c7_add_eval :
    layoutAdd (layoutE none []) [.elem tallLeaf] = .ok (addChild (layoutE none []) tallLeaf)
    ∧ layoutAdd (layoutE none []) [.elem tallLeaf, .elem (leafE (some "y") 0)]
        = .ok (addChild (addChild (layoutE none []) tallLeaf) (leafE (some "y") 0))
    ∧ layoutAdd (layoutE none []) [.arr [.elem tallLeaf]] = .error .invalidElement :=
  ⟨rfl, rfl, rfl⟩

/-- C1 (the code at the failing input): in `AUTOMATIC_ADDING` mode with a
valid template, an `add` whose `layoutID` resolves to no element in the
current page **throws** — the `null` returned by the breadth-first lookup
reaches the `instanceof AbstractLayout` check (part_001 line 467) before
the not-found warning branch (line 479), so the call is fatal rather than
the warned no-op the spec describes. -/
theorem c1_notfound_throws :
    sC1.addElem (leafE none 0) (some "b") = .error .invalidTarget := by
  simp [sC1, VRUIState.addElem, AUTOMATIC_ADDING, VRUIState.addWithExpansion,
    VRUIState.addPage, resolveDims, layoutE, leafE, baseCore, s0, visitPath,
    bfsSearch, childQueue, Elem.core, Elem.children, List.getD]

/-- C2 (the code at the failing input): with an empty template of
capacity `k = 1` (one child of style height `1` fills a page), adding two
elements one at a time does create a second page, but the overflow element
is appended to the *old, full* page — the pages end up holding `[2, 0]`
children instead of the claimed `[1, 1]`, because the insertion target is
only redirected to the fresh page when a `layoutID` is given (part_001
line 476). -/
theorem c2_overflow_eval :
    ((sC2.addElem tallLeaf none).bind fun s => s.addElem tallLeaf none).map
        (fun s => s.pages.map fun p => p.children.length) = .ok [2, 0] := by
  norm_num [sC2, VRUIState.addElem, AUTOMATIC_ADDING, VRUIState.addWithExpansion,
    VRUIState.addPage, resolveDims, layoutE, leafE, tallLeaf, baseCore, s0,
    isFull, heights, addChild, Elem.core, Elem.children, List.getD,
    Except.bind, Except.map]

/-- `forceExit` leaves no element of the forest — at any depth — with
`hover = true`. -/
theorem forestHoverFree_forceExitList (es : List Elem) :
    forestHoverFree (forceExitList es) = true := by
  match es with
  | [] => simp [forceExitList, forestHoverFree]
  | .mk c cs :: es =>
    have h1 := forestHoverFree_forceExitList cs
    have h2 := forestHoverFree_forceExitList es
    simp [forceExitList, forestHoverFree, nodeHoverFree, h1, h2]
termination_by fsize es
decreasing_by
  all_goals simp [fsize, esize]
  all_goals omega

/-- The `_intersect` child loop visits children in order and stops at the
first hit, leaving the remaining children untouched. -/
theorem intersectList_first_hit (r : Ray) (l₁ : List Elem) (x : Elem)
    (l₂ : List Elem) (h₁ : ∀ y ∈ l₁, (intersectE r y).1 = false)
    (hx : (intersectE r x).1 = true) :
    intersectList r (l₁ ++ x :: l₂)
      = (true, l₁.map (fun y => (intersectE r y).2) ++ (intersectE r x).2 :: l₂) := by
  induction l₁ with
  | nil => simp [intersectList, hx]
  | cons y l₁ ih =>
    have hy : (intersectE r y).1 = false := h₁ y (List.mem_cons_self y l₁)
    have ih2 := ih fun z hz => h₁ z (List.mem_cons_of_mem y hz)
    simp [intersectList, hy, ih2]

/-- C5: for every container, `intersect` on a ray that misses the
container's background fires the container's hover-exit wrapper, leaves
no descendant with `hover = true` (even one hovered before the call), and
returns false; on a ray that hits the background it returns true
unconditionally, testing children in insertion order and stopping at the
first child hit while leaving the children after it untouched. -/
theorem c5_intersect_spec (r : Ray) (e : Elem) :
    (e.core.bg r = false →
        (intersectE r e).1 = false
        ∧ (intersectE r e).2.core.exitCount = e.core.exitCount + 1
        ∧ forestHoverFree (intersectE r e).2.children = true)
    ∧ (e.core.bg r = true → (intersectE r e).1 = true)
    ∧ (∀ (c : ElemCore) (l₁ : List Elem) (x : Elem) (l₂ : List Elem),
        e = .mk c (l₁ ++ x :: l₂) → c.bg r = true →
        (∀ y ∈ l₁, (intersectE r y).1 = false) → (intersectE r x).1 = true →
        (intersectE r e).2.children
          = l₁.map (fun y => (intersectE r y).2) ++ (intersectE r x).2 :: l₂) := by
  obtain ⟨c, cs⟩ := e
  refine ⟨fun hmiss => ?_, fun hhit => ?_, fun c2 l₁ x l₂ heq hhit h₁ hx => ?_⟩
  · simp only [Elem.core_mk] at hmiss
    simp [intersectE, hmiss, forestHoverFree_forceExitList]
  · simp only [Elem.core_mk] at hhit
    simp [intersectE, hhit]
  · obtain ⟨rfl, rfl⟩ : c = c2 ∧ cs = l₁ ++ x :: l₂ := by
      injection heq with h1 h2; exact ⟨h1, h2⟩
    simp [intersectE, hhit, intersectList_first_hit r l₁ x l₂ h₁ hx]

/-- Witness for C5 at a concrete input: a container holding a hovered
child, intersected with a ray its background test rejects, reports no
hit, fires its exit wrapper once, and leaves no descendant hovered. -/
theorem c5_intersect_witness :
    (intersectE rayW eC5).1 = false
    ∧ (intersectE rayW eC5).2.core.exitCount = eC5.core.exitCount + 1
    ∧ forestHoverFree (intersectE rayW eC5).2.children = true :=
  (c5_intersect_spec rayW eC5).1 rfl

/-- In the vertical placement loop, a child's horizontal offset is a
function of the content width and the child's own declared position and
resolved dimensions alone — the vertical accumulators do not enter. -/
theorem vloop_posX (maxW maxH hh : ℚ) (cs : List VChild) (t b : ℚ) (i : ℕ)
    (hi : i < cs.length) :
    ((vloop maxW maxH hh t b cs).getD i default).posX =
      match (cs.getD i default).pos with
      | .right => maxW - ((cs.getD i default).dims maxW maxH).width
      | .center => maxW * (1/2) - ((cs.getD i default).dims maxW maxH).halfW
      | .left => (cs.getD i default).posX := by
  induction cs generalizing t b i with
  | nil => simp at hi
  | cons c cs ih =>
    cases i with
    | zero => cases hc : c.pos <;> simp [vloop, hc]
    | succ i =>
      have hi2 : i < cs.length := by simpa using hi
      simpa [vloop] using ih _ _ i hi2

/-- In the vertical placement loop over `align: top` children, the
negated vertical offset of child `i` is the accumulator seed plus the
full extents of children `0..i-1` plus child `i`'s own top margin. -/
theorem vloop_top_posY (maxW maxH hh : ℚ) (cs : List VChild)
    (hall : ∀ c ∈ cs, c.align = .top) (t b : ℚ) (i : ℕ) (hi : i < cs.length) :
    ((vloop maxW maxH hh t b cs).getD i default).posY
      = -(t + ((cs.take i).map (fullH maxW maxH)).sum
          + ((cs.getD i default).dims maxW maxH).mTop) := by
  induction cs generalizing t b i with
  | nil => simp at hi
  | cons c cs ih =>
    have hc : c.align = .top := hall c (List.mem_cons_self c cs)
    cases i with
    | zero => simp [vloop, hc]
    | succ i =>
      have hi2 : i < cs.length := by simpa using hi
      have ih2 := ih (fun x hx => hall x (List.mem_cons_of_mem c hx))
        (t + (c.dims maxW maxH).mTop + (c.dims maxW maxH).height + (c.dims maxW maxH).mBottom)
        b i hi2
      simp only [vloop, hc, List.getD_cons_succ, List.take_succ_cons, List.map_cons,
        List.sum_cons]
      rw [ih2]
      simp only [fullH]
      ring

/-- C6: for a vertical container whose children all declare
`align: top`, after `refresh` the negated vertical offset of child `i`
equals the container's top padding plus the heights and vertical margins
of children `0..i-1` plus child `i`'s own top margin; and (for
nonnegative resolved heights and margins) no two children overlap
vertically: each child's top offset plus its height is at most the top
offset of any later child. -/
theorem c6_vertical_offsets (w h : ℚ) (pad : VPad) (cs : List VChild)
    (hall : ∀ c ∈ cs, c.align = .top) :
    (∀ i, i < cs.length →
        -(((verticalRefresh w h pad cs).getD i default).posY)
          = pad.top + ((cs.take i).map (fullH (contentW w pad) (contentH h pad))).sum
            + ((cs.getD i default).dims (contentW w pad) (contentH h pad)).mTop)
    ∧ ((∀ c ∈ cs, 0 ≤ (c.dims (contentW w pad) (contentH h pad)).height
          ∧ 0 ≤ (c.dims (contentW w pad) (contentH h pad)).mTop
          ∧ 0 ≤ (c.dims (contentW w pad) (contentH h pad)).mBottom) →
        ∀ i j, i < j → j < cs.length →
          -(((verticalRefresh w h pad cs).getD i default).posY)
            + ((cs.getD i default).dims (contentW w pad) (contentH h pad)).height
          ≤ -(((verticalRefresh w h pad cs).getD j default).posY)) := by
  constructor
  · intro i hi
    rw [verticalRefresh, vloop_top_posY _ _ _ cs hall _ _ i hi]
    ring
  · intro hnn i j hij hj
    have hi : i < cs.length := lt_trans hij hj
    rw [verticalRefresh, vloop_top_posY _ _ _ cs hall _ _ i hi,
      vloop_top_posY _ _ _ cs hall _ _ j hj]
    have hgdi : cs.getD i default = cs[i] := List.getD_eq_getElem cs default hi
    have hgdj : cs.getD j default = cs[j] := List.getD_eq_getElem cs default hj
    obtain ⟨m, hm⟩ : ∃ m, j = i + m := ⟨j - i, by omega⟩
    obtain ⟨k, hk⟩ : ∃ k, m = k + 1 := ⟨m - 1, by omega⟩
    have hsplit : cs.take j = cs.take i ++ (cs.drop i).take m := by
      rw [hm, List.take_add]
    have hdrop : cs.drop i = cs[i] :: cs.drop (i + 1) :=
      List.drop_eq_getElem_cons hi
    have hseg : (cs.drop i).take m = cs[i] :: (cs.drop (i + 1)).take k := by
      rw [hdrop, hk, List.take_succ_cons]
    have hsum : ((cs.take j).map (fullH (contentW w pad) (contentH h pad))).sum
        = ((cs.take i).map (fullH (contentW w pad) (contentH h pad))).sum
          + (fullH (contentW w pad) (contentH h pad) cs[i]
            + (((cs.drop (i + 1)).take k).map
                (fullH (contentW w pad) (contentH h pad))).sum) := by
      rw [hsplit, List.map_append, List.sum_append, hseg, List.map_cons, List.sum_cons]
    have hrest : 0 ≤ (((cs.drop (i + 1)).take k).map
        (fullH (contentW w pad) (contentH h pad))).sum := by
      apply List.sum_nonneg
      intro x hx
      simp only [List.mem_map] at hx
      obtain ⟨y, hy, rfl⟩ := hx
      have hyc : y ∈ cs := List.drop_subset _ cs (List.take_subset _ _ hy)
      obtain ⟨h1, h2, h3⟩ := hnn y hyc
      unfold fullH
      linarith
    have hmemi : cs[i] ∈ cs := List.getElem_mem hi
    have hmemj : cs[j] ∈ cs := List.getElem_mem hj
    obtain ⟨hhi, hti, hbi⟩ := hnn _ hmemi
    obtain ⟨hhj, htj, hbj⟩ := hnn _ hmemj
    rw [hgdi, hgdj]
    have hfull : fullH (contentW w pad) (contentH h pad) cs[i]
        = (cs[i].dims (contentW w pad) (contentH h pad)).mTop
          + (cs[i].dims (contentW w pad) (contentH h pad)).height
          + (cs[i].dims (contentW w pad) (contentH h pad)).mBottom := rfl
    linarith [hsum]

/-- Witness for C6 at a concrete input: with top padding `1` and two
stacked `align: top` children, the second child's top offset is the
padding plus the first child's margins and height plus its own top
margin. -/
theorem c6_vertical_witness :
    -(((verticalRefresh 10 10 padC6 childrenC6).getD 1 default).posY)
      = padC6.top
        + ((childrenC6.take 1).map (fullH (contentW 10 padC6) (contentH 10 padC6))).sum
        + (((childrenC6.getD 1 default).dims (contentW 10 padC6) (contentH 10 padC6)).mTop) :=
  (c6_vertical_offsets 10 10 padC6 childrenC6 (by
      intro c hc
      simp only [childrenC6, List.mem_cons, List.not_mem_nil, or_false] at hc
      rcases hc with rfl | rfl <;> rfl)).1 1 (by norm_num [childrenC6])

/-- C8 counterexample: the claim says a `position: right` child's
horizontal offset is `(containerWidth - childWidth)`; with container
width `10`, left padding `1` and a child of resolved width `4` the code
computes `(10 - 1) - 4 = 5`, not `10 - 4 = 6`. -/
theorem c8_right_offset_cex :
    ((verticalRefresh 10 10 padC8 [childC8]).getD 0 default).posX
      ≠ 10 - ((childC8.dims (contentW 10 padC8) (contentH 10 padC8)).width) := by
  norm_num [verticalRefresh, vloop, contentW, contentH, padC8, childC8]

/-- C8 (amended): horizontal placement is independent of the vertical
pass and is computed against the content width (container width minus
horizontal padding): `right` places the child at
`contentWidth - childWidth`, `center` at `contentWidth/2 - halfWidth`,
and the left default leaves the child's horizontal offset unchanged
(`0` for children that start at `0`). -/
theorem c8_horizontal_placement (w h : ℚ) (pad : VPad) (cs : List VChild)
    (i : ℕ) (hi : i < cs.length) :
    ((cs.getD i default).pos = .right →
        ((verticalRefresh w h pad cs).getD i default).posX
          = contentW w pad - ((cs.getD i default).dims (contentW w pad) (contentH h pad)).width)
    ∧ ((cs.getD i default).pos = .center →
        ((verticalRefresh w h pad cs).getD i default).posX
          = contentW w pad * (1/2)
            - ((cs.getD i default).dims (contentW w pad) (contentH h pad)).halfW)
    ∧ ((cs.getD i default).pos = .left →
        ((verticalRefresh w h pad cs).getD i default).posX
          = (cs.getD i default).posX) := by
  have hx := vloop_posX (contentW w pad) (contentH h pad) h cs pad.top pad.bottom i hi
  rw [verticalRefresh]
  refine ⟨fun hp => ?_, fun hp => ?_, fun hp => ?_⟩ <;> rw [hx, hp]

/-- Witness for C8 (amended) at a concrete input: the right-positioned
child of `c8_right_offset_cex` sits at `contentWidth - childWidth`. -/
theorem c8_horizontal_witness :
    ((verticalRefresh 10 10 padC8 [childC8]).getD 0 default).posX
      = contentW 10 padC8
        - (((([childC8] : List VChild).getD 0 default).dims (contentW 10 padC8)
            (contentH 10 padC8)).width) :=
  ((c8_horizontal_placement 10 10 padC8 [childC8] 0 (by norm_num)).1 (by rfl))

/-- Looking one slot past a list in a concatenation yields the appended
element. -/
theorem getD_concat {α : Type} [Inhabited α] (l : List α) (x : α) :
    (l ++ [x]).getD l.length default = x := by
  induction l with
  | nil => rfl
  | cons a l ih => simp only [List.length_cons, List.cons_append, List.getD_cons_succ]; exact ih

/-- C9: `addPage` with the `dimensions` argument omitted uses the
controller's own width and height; in all cases the new page's transform
offsets are `x = -width/2` and `y = +height/2` and its
`_parentDimensions` are the resolved dimensions; pages are appended in
call order (existing pages untouched); and when pages already exist,
adding one changes neither the current index nor the current page. -/
theorem c9_addPage_spec (s : VRUIState) (page : Elem) (dims : Option PageDims) :
    (dims = none → resolveDims s dims = (s.width, s.height))
    ∧ (s.addPage page dims).pages.length = s.pages.length + 1
    ∧ (s.addPage page dims).pages.take s.pages.length = s.pages
    ∧ ((s.addPage page dims).pages.getD s.pages.length default).core.posX
        = -((resolveDims s dims).1 * (1/2))
    ∧ ((s.addPage page dims).pages.getD s.pages.length default).core.posY
        = (resolveDims s dims).2 * (1/2)
    ∧ ((s.addPage page dims).pages.getD s.pages.length default).core.parentDims
        = some (resolveDims s dims)
    ∧ (s.pages ≠ [] → (s.addPage page dims).pageId = s.pageId) := by
  refine ⟨fun hd => by rw [hd]; rfl, ?_, ?_, ?_, ?_, ?_, fun hne => ?_⟩
  · simp [VRUIState.addPage]
  · simp [VRUIState.addPage, List.take_left]
  · simp [VRUIState.addPage, getD_concat]
  · simp [VRUIState.addPage, getD_concat]
  · simp [VRUIState.addPage, getD_concat]
  · simp [VRUIState.addPage, List.isEmpty_iff, hne]

/-- Witness for C9 at a concrete input: adding a page with no dimensions
to a `3 × 2` controller with one existing page resolves the controller's
own dimensions and keeps page `0` current. -/
theorem c9_addPage_witness :
    resolveDims sC9 none = (sC9.width, sC9.height)
    ∧ (sC9.addPage (layoutE none []) none).pageId = sC9.pageId :=
  ⟨(c9_addPage_spec sC9 (layoutE none []) none).1 rfl,
    (c9_addPage_spec sC9 (layoutE none []) none).2.2.2.2.2.2 (by simp [sC9, s0])⟩

@[simp] theorem Elem.core_setVis_visible (e : Elem) (b : Bool) :
    (e.setVis b).core.visible = b := by
  cases e; rfl

/-- JS `(i - 1) % n` with the negative fixup equals the mathematical
`(i + n - 1) % n` whenever the index is in range. -/
theorem prevIdx_eq (i n : ℕ) (h : i < n) : prevIdx i n = (i + n - 1) % n := by
  unfold prevIdx
  rcases Nat.eq_zero_or_pos i with rfl | hpos
  · simp only [Nat.cast_zero]
    have htm : ((0 : ℤ) - 1).tmod (n : ℤ) = -(1 % (n : ℤ)) := rfl
    rcases Nat.lt_or_ge n 2 with hn2 | hn2
    · have hn1 : n = 1 := by omega
      subst hn1
      simp [htm]
    · have hmod : (1 : ℤ) % (n : ℤ) = 1 :=
        Int.emod_eq_of_lt (by norm_num) (by exact_mod_cast hn2)
      rw [htm, hmod]
      norm_num
  · have h0 : (0 : ℤ) ≤ (i : ℤ) - 1 := by
      have : (1 : ℤ) ≤ (i : ℤ) := by exact_mod_cast hpos
      omega
    rw [Int.tmod_eq_emod h0 (by positivity)]
    have hlt : (i : ℤ) - 1 < (n : ℤ) := by
      have : (i : ℤ) < (n : ℤ) := by exact_mod_cast h
      omega
    rw [Int.emod_eq_of_lt h0 hlt]
    have hneg : ¬((i : ℤ) - 1 < 0) := by omega
    rw [if_neg hneg]
    have ht : ((i : ℤ) - 1).toNat = i - 1 := by omega
    rw [ht, show i + n - 1 = (i - 1) + n from by omega, Nat.add_mod_right,
      Nat.mod_eq_of_lt (by omega)]

/-- `hideShow` does not change the number of pages. -/
theorem hideShow_length (s : VRUIState) (j : ℕ) :
    (s.hideShow j).pages.length = s.pages.length := by
  simp [VRUIState.hideShow]

/-- `hideShow` installs `j` as the current index. -/
theorem hideShow_pageId (s : VRUIState) (j : ℕ) : (s.hideShow j).pageId = j := rfl

/-- After a `hideShow` on an invariant-satisfying controller, a page is
visible exactly when it is the new current page. -/
theorem hideShow_vis (s : VRUIState) (hs : Inv s) (j : ℕ)
    (_hj : j < s.pages.length) (k : ℕ) (hk : k < s.pages.length) :
    (((s.hideShow j).pages.getD k default)).core.visible = decide (k = j) := by
  obtain ⟨hp, hvis⟩ := hs
  simp only [VRUIState.hideShow]
  have hlen1 : (s.pages.set s.pageId ((s.pages.getD s.pageId default).setVis false)).length
      = s.pages.length := by simp
  rw [List.getD_eq_getElem _ _ (by simpa [hlen1] using hk), List.getElem_set]
  split
  · rename_i hjk
    subst hjk
    simp
  · rename_i hjk
    rw [List.getElem_set]
    split
    · rename_i hik
      simp only [Elem.core_setVis_visible]
      have : ¬(k = j) := fun hkj => hjk (hkj.symm)
      simp [this]
    · rename_i hik
      have h1 := hvis k hk
      rw [List.getD_eq_getElem _ _ hk] at h1
      rw [h1]
      have hki : ¬(k = s.pageId) := fun hc => hik hc.symm
      have hkj : ¬(k = j) := fun hc => hjk hc.symm
      simp [hki, hkj]

/-- `hideShow` to an in-range index preserves the visibility invariant. -/
theorem inv_hideShow (s : VRUIState) (hs : Inv s) (j : ℕ)
    (hj : j < s.pages.length) : Inv (s.hideShow j) := by
  refine ⟨?_, ?_⟩
  · rw [hideShow_length, hideShow_pageId]; exact hj
  · intro k hk
    rw [hideShow_length] at hk
    rw [hideShow_pageId]
    exact hideShow_vis s hs j hj k hk

/-- `nextPage` preserves the invariant and advances with wraparound. -/
theorem inv_nextPage (s : VRUIState) (hs : Inv s) :
    Inv s.nextPage ∧ s.nextPage.pageId = (s.pageId + 1) % s.pages.length := by
  have hn : 0 < s.pages.length := lt_of_le_of_lt (Nat.zero_le _) hs.1
  exact ⟨inv_hideShow s hs _ (Nat.mod_lt _ hn), rfl⟩

/-- `prevPage` preserves the invariant and steps back with wraparound. -/
theorem inv_prevPage (s : VRUIState) (hs : Inv s) :
    Inv s.prevPage ∧ s.prevPage.pageId = (s.pageId + s.pages.length - 1) % s.pages.length := by
  have hn : 0 < s.pages.length := lt_of_le_of_lt (Nat.zero_le _) hs.1
  have he : prevIdx s.pageId s.pages.length
      = (s.pageId + s.pages.length - 1) % s.pages.length := prevIdx_eq _ _ hs.1
  constructor
  · exact inv_hideShow s hs _ (he ▸ Nat.mod_lt _ hn)
  · rw [VRUIState.prevPage, hideShow_pageId, he]

/-- One visible page, counted: if visibility is `decide (k = i)` for an
in-range `i`, the visible-page count is exactly one. -/
theorem countP_vis_eq_one (l : List Elem) (i : ℕ) (hi : i < l.length)
    (h : ∀ k, k < l.length → (l.getD k default).core.visible = decide (k = i)) :
    l.countP (fun p => p.core.visible) = 1 := by
  induction l generalizing i with
  | nil => simp at hi
  | cons x xs ih =>
    have h0 := h 0 (by simp)
    simp only [List.getD_cons_zero] at h0
    rw [List.countP_cons]
    cases i with
    | zero =>
      have hxs : ∀ y ∈ xs, ¬((fun p => p.core.visible) y = true) := by
        intro y hy
        obtain ⟨k, hk, hky⟩ := List.mem_iff_getElem.mp hy
        have hk1 := h (k + 1) (by simp only [List.length_cons]; omega)
        rw [List.getD_cons_succ, List.getD_eq_getElem _ _ hk, hky] at hk1
        simp only [hk1]
        simp
      rw [List.countP_eq_zero.mpr hxs]
      simp [h0]
    | succ i2 =>
      have hx : x.core.visible = false := by simpa using h0
      have hi2 : i2 < xs.length := by simpa using hi
      have ih2 := ih i2 hi2 (fun k hk => by
        have hk1 := h (k + 1) (by simp only [List.length_cons]; omega)
        rw [List.getD_cons_succ] at hk1
        rw [hk1]
        simp)
      simp [hx, ih2]

/-- Equal visibility at every index means equal visibility vectors. -/
theorem visVec_ext (s1 s2 : VRUIState) (hlen : s1.pages.length = s2.pages.length)
    (h : ∀ k, k < s2.pages.length →
      (s1.pages.getD k default).core.visible = (s2.pages.getD k default).core.visible) :
    visVec s1 = visVec s2 := by
  apply List.ext_getElem (by simp [visVec, hlen])
  intro k h1 h2
  simp only [visVec, List.getElem_map]
  have hk2 : k < s2.pages.length := by simpa [visVec] using h2
  have hk1 : k < s1.pages.length := by omega
  have := h k hk2
  rwa [List.getD_eq_getElem _ _ hk1, List.getD_eq_getElem _ _ hk2] at this

/-- Wraparound arithmetic: stepping forward then backward is the
identity on in-range indices. -/
theorem cycle_next_prev (i n : ℕ) (h : i < n) :
    ((i + 1) % n + n - 1) % n = i := by
  rw [show (i + 1) % n + n - 1 = (i + 1) % n + (n - 1) from by omega,
    Nat.mod_add_mod, show i + 1 + (n - 1) = i + n from by omega,
    Nat.add_mod_right]
  exact Nat.mod_eq_of_lt h

/-- Wraparound arithmetic: stepping backward then forward is the
identity on in-range indices. -/
theorem cycle_prev_next (i n : ℕ) (h : i < n) :
    ((i + n - 1) % n + 1) % n = i := by
  rw [Nat.mod_add_mod, show i + n - 1 + 1 = i + n from by omega,
    Nat.add_mod_right]
  exact Nat.mod_eq_of_lt h

/-- Navigation preserves the visibility invariant. -/
theorem inv_runMoves (ms : List PageMove) (s : VRUIState) (hs : Inv s) :
    Inv (runMoves ms s) := by
  induction ms generalizing s with
  | nil => exact hs
  | cons m ms ih =>
    cases m
    · exact ih _ (inv_nextPage s hs).1
    · exact ih _ (inv_prevPage s hs).1

/-- C3: for every controller satisfying the page-visibility invariant
(`n ≥ 1` pages, exactly the current page visible — the state every
`addPage`/`nextPage`/`prevPage` history produces), any sequence of
`nextPage`/`prevPage` calls keeps exactly one page visible; the
transitions wrap around as `(index ± 1) mod n`; `nextPage` then
`prevPage` (and vice versa) returns to the same current page with an
identical visibility vector; the first page added to an empty controller
becomes current and visible; and every page added to a nonempty
controller starts hidden, changing neither the current index nor the
invariant. -/
theorem c3_page_visibility :
    (∀ (s : VRUIState) (ms : List PageMove), Inv s →
        Inv (runMoves ms s)
        ∧ (runMoves ms s).pages.countP (fun p => p.core.visible) = 1)
    ∧ (∀ s : VRUIState, Inv s →
        s.nextPage.pageId = (s.pageId + 1) % s.pages.length
        ∧ s.prevPage.pageId = (s.pageId + s.pages.length - 1) % s.pages.length)
    ∧ (∀ s : VRUIState, Inv s →
        (s.nextPage.prevPage).pageId = s.pageId
        ∧ visVec (s.nextPage.prevPage) = visVec s
        ∧ (s.prevPage.nextPage).pageId = s.pageId
        ∧ visVec (s.prevPage.nextPage) = visVec s)
    ∧ (∀ (s : VRUIState) (p : Elem) (d : Option PageDims), s.pages = [] →
        (s.addPage p d).pageId = 0
        ∧ visVec (s.addPage p d) = [true]
        ∧ Inv (s.addPage p d))
    ∧ (∀ (s : VRUIState) (p : Elem) (d : Option PageDims), s.pages ≠ [] →
        visVec (s.addPage p d) = visVec s ++ [false]
        ∧ (s.addPage p d).pageId = s.pageId
        ∧ (Inv s → Inv (s.addPage p d))) := by
  have hnext_id : ∀ s : VRUIState, s.nextPage.pageId = (s.pageId + 1) % s.pages.length :=
    fun s => rfl
  have hprev_id : ∀ s : VRUIState, Inv s →
      s.prevPage.pageId = (s.pageId + s.pages.length - 1) % s.pages.length := by
    intro s hs
    rw [VRUIState.prevPage, hideShow_pageId, prevIdx_eq _ _ hs.1]
  refine ⟨?_, fun s hs => ⟨hnext_id s, hprev_id s hs⟩, ?_, ?_, ?_⟩
  · intro s ms hs
    have hinv := inv_runMoves ms s hs
    exact ⟨hinv, countP_vis_eq_one _ _ hinv.1 hinv.2⟩
  · intro s hs
    have hn : 0 < s.pages.length := lt_of_le_of_lt (Nat.zero_le _) hs.1
    -- next then prev
    have hinv1 : Inv s.nextPage := (inv_nextPage s hs).1
    have hlen1 : s.nextPage.pages.length = s.pages.length := hideShow_length s _
    have hidx1 : prevIdx s.nextPage.pageId s.nextPage.pages.length = s.pageId := by
      rw [prevIdx_eq _ _ hinv1.1, hnext_id s, hlen1]
      exact cycle_next_prev _ _ hs.1
    have hnp : s.nextPage.prevPage = s.nextPage.hideShow s.pageId := by
      rw [VRUIState.prevPage, hidx1]
    -- prev then next
    have hinv2 : Inv s.prevPage := (inv_prevPage s hs).1
    have hlen2 : s.prevPage.pages.length = s.pages.length := hideShow_length s _
    have hidx2 : (s.prevPage.pageId + 1) % s.prevPage.pages.length = s.pageId := by
      rw [hprev_id s hs, hlen2]
      exact cycle_prev_next _ _ hs.1
    have hpn : s.prevPage.nextPage = s.prevPage.hideShow s.pageId := by
      rw [VRUIState.nextPage, hidx2]
    refine ⟨by rw [hnp, hideShow_pageId], ?_, by rw [hpn, hideShow_pageId], ?_⟩
    · rw [hnp]
      apply visVec_ext
      · rw [hideShow_length, hlen1]
      · intro k hk
        rw [hideShow_vis s.nextPage hinv1 s.pageId (hlen1 ▸ hs.1) k (hlen1 ▸ hk),
          hs.2 k hk]
    · rw [hpn]
      apply visVec_ext
      · rw [hideShow_length, hlen2]
      · intro k hk
        rw [hideShow_vis s.prevPage hinv2 s.pageId (hlen2 ▸ hs.1) k (hlen2 ▸ hk),
          hs.2 k hk]
  · intro s p d h
    refine ⟨by simp [VRUIState.addPage, h], by simp [visVec, VRUIState.addPage, h], ?_, ?_⟩
    · simp [VRUIState.addPage, h]
    · intro k hk
      simp only [VRUIState.addPage, h] at hk ⊢
      simp at hk
      subst hk
      simp
  · intro s p d h
    have hne : s.pages.isEmpty = false := by
      simpa [List.isEmpty_iff] using h
    refine ⟨?_, ?_, ?_⟩
    · simp [visVec, VRUIState.addPage, hne]
    · simp [VRUIState.addPage, hne]
    · intro hs
      refine ⟨?_, ?_⟩
      · have h1 := hs.1
        simp only [VRUIState.addPage, hne, Bool.false_eq_true, if_false,
          List.length_append, List.length_cons, List.length_nil]
        omega
      · intro k hk
        simp only [VRUIState.addPage, hne, Bool.false_eq_true, if_false,
          List.length_append, List.length_cons, List.length_nil] at hk ⊢
        rcases Nat.lt_or_ge k s.pages.length with hlt | hge
        · rw [List.getD_append _ _ _ _ hlt, hs.2 k hlt]
        · have hkl : k = s.pages.length := by omega
          subst hkl
          rw [getD_concat]
          have : ¬(s.pages.length = s.pageId) := by
            have := hs.1
            omega
          simp [this]

/-- The concrete two-page controller satisfies the visibility
invariant. -/
theorem inv_sC3 : Inv sC3 := by
  constructor
  · simp [sC3, s0]
  · intro k hk
    simp only [sC3, s0] at hk ⊢
    simp only [List.length_cons, List.length_nil] at hk
    interval_cases k <;> simp [layoutE, baseCore]

/-- Witness for C3 at a concrete input: on a two-page controller with
page 0 current, a `nextPage` followed by a `prevPage` leaves exactly one
page visible and restores page 0 as current. -/
theorem c3_page_visibility_witness :
    (runMoves [PageMove.next, PageMove.prev] sC3).pages.countP
        (fun p => p.core.visible) = 1
    ∧ (sC3.nextPage.prevPage).pageId = sC3.pageId :=
  ⟨(c3_page_visibility.1 sC3 [PageMove.next, PageMove.prev] inv_sC3).2,
    (c3_page_visibility.2.2.1 sC3 inv_sC3).1⟩

end VRUIModel
